import Mathlib

/-!
Verification of the core of the Surreal Phoenicians trading game: the
three-component surreal price type, the pricing engine, the negotiation
resolver, the transaction cores, and the supply-refresh scheduler.
All numeric fields are modelled over `ℚ` (exact rational arithmetic in
place of the reference implementation's floating point), machine integers
over `ℤ`, Python dicts as association lists in insertion order, and a
`KeyError` crash as a `none` result.
-/

set_option maxHeartbeats 2000000

/-- Tolerance used by the reference equality comparison (1e-10). -/
def eps : ℚ := 1 / 10000000000

/-- A surreal number a + b·ε + c·ω: real part `a`, infinitesimal coefficient
`b`, infinite coefficient `c`. -/
structure SurrealNumber where
  a : ℚ
  b : ℚ
  c : ℚ
deriving DecidableEq

namespace SurrealNumber

/-- Componentwise addition (the reference `__add__` on two surreal operands). -/
def add (x y : SurrealNumber) : SurrealNumber :=
  ⟨x.a + y.a, x.b + y.b, x.c + y.c⟩

/-- Componentwise subtraction (the reference `__sub__` on two surreal operands). -/
def sub (x y : SurrealNumber) : SurrealNumber :=
  ⟨x.a - y.a, x.b - y.b, x.c - y.c⟩

/-- Scalar multiplication (the reference `__mul__`, scalars only). -/
def mul (x : SurrealNumber) (k : ℚ) : SurrealNumber :=
  ⟨x.a * k, x.b * k, x.c * k⟩

/-- Strict less-than: lexicographic on ω, then the real part, then ε
(the reference `__lt__`, exact comparisons). -/
def slt (x y : SurrealNumber) : Bool :=
  if x.c ≠ y.c then decide (x.c < y.c)
  else if x.a ≠ y.a then decide (x.a < y.a)
  else decide (x.b < y.b)

/-- Tolerance-based equality: all three components within `eps`
(the reference `__eq__`). -/
def seq (x y : SurrealNumber) : Bool :=
  decide (|x.a - y.a| < eps) && decide (|x.b - y.b| < eps) &&
    decide (|x.c - y.c| < eps)

/-- `__le__`: strictly less or tolerance-equal. -/
def sle (x y : SurrealNumber) : Bool := slt x y || seq x y

/-- `__gt__`: not `sle`. -/
def sgt (x y : SurrealNumber) : Bool := !(sle x y)

/-- `__ge__`: not `slt`. -/
def sge (x y : SurrealNumber) : Bool := !(slt x y)

/-- A price is legal when its infinite component is non-positive. -/
def is_legal (x : SurrealNumber) : Bool := decide (x.c ≤ 0)

/-- Copy with the ω component reset to 0 (a permit applied). -/
def clear_omega (x : SurrealNumber) : SurrealNumber := ⟨x.a, x.b, 0⟩

end SurrealNumber

/-- Python `max` over a list of surreal numbers: `none` on the empty list,
otherwise the fold keeping the current maximum, replacing it when a later
element compares `__gt__` above it. -/
def maxList : List SurrealNumber → Option SurrealNumber
  | [] => none
  | x :: xs =>
      some (xs.foldl (fun acc y => if SurrealNumber.sgt y acc then y else acc) x)

/-- Python `min` over a list of surreal numbers, replacing the current
minimum when a later element compares `__lt__` below it. -/
def minList : List SurrealNumber → Option SurrealNumber
  | [] => none
  | x :: xs =>
      some (xs.foldl (fun acc y => if SurrealNumber.slt y acc then y else acc) x)

/-- `NegotiationCut.find_simplest_in_gap`: `none` when either side is empty or
`max L >= min R`; otherwise the midpoint on the real axis, neutral ε, and the
stricter ω constraint. -/
def find_simplest_in_gap (L R : List SurrealNumber) : Option SurrealNumber :=
  match maxList L, minList R with
  | some maxL, some minR =>
      if SurrealNumber.sge maxL minR then none
      else some ⟨(maxL.a + minR.a) / 2, 0, max maxL.c minR.c⟩
  | _, _ => none

/-- The two opening offers filed by `negotiate_price` into the cut, as the
pair (L, R): buying puts the merchant counter (1.05×base) into L and the
player offer (0.85×base) into R; selling puts the player offer (1.15×base)
into L and the merchant counter (0.95×base) into R. -/
def negotiationCut (base : SurrealNumber) (is_buying : Bool) :
    List SurrealNumber × List SurrealNumber :=
  if is_buying then ([base.mul (105/100)], [base.mul (85/100)])
  else ([base.mul (115/100)], [base.mul (95/100)])

/-- The resolver part of `GameState.negotiate_price`, parametrised by the base
price it computed: `none` when the base price is illegal; otherwise the
simplest value in the cut's gap (or the base price when there is no gap)
scaled by the quantity. -/
def resolveNegotiation (base : SurrealNumber) (quantity : ℤ) (is_buying : Bool) :
    Option SurrealNumber :=
  if base.is_legal then
    let cut := negotiationCut base is_buying
    let final_price :=
      match find_simplest_in_gap cut.1 cut.2 with
      | some p => p
      | none => base
    some (final_price.mul (quantity : ℚ))
  else none

/-- First-match lookup in an association list (a Python dict access). -/
def findA {α : Type} : List (String × α) → String → Option α
  | [], _ => none
  | (k, v) :: t, key => if k = key then some v else findA t key

/-- Lookup with a default (Python `dict.get(key, d)`). -/
def findD {α : Type} (l : List (String × α)) (key : String) (d : α) : α :=
  (findA l key).getD d

/-- Write a key (Python `dict[key] = v`): replaces the first binding of the
key, or appends a fresh binding. -/
def setA {α : Type} : List (String × α) → String → α → List (String × α)
  | [], key, v => [(key, v)]
  | (k, w) :: t, key, v =>
      if k = key then (key, v) :: t else (k, w) :: setA t key v

/-- Delete a key (Python `del dict[key]`). -/
def removeA {α : Type} : List (String × α) → String → List (String × α)
  | [], _ => []
  | (k, w) :: t, key => if k = key then t else (k, w) :: removeA t key

structure Good where
  id : String
  name : String
  base_a : ℚ
  base_b : ℚ
  monopoly : Bool
  fragile : Bool
  perishable : Bool
deriving DecidableEq

structure CityModifier where
  a_mod : ℚ
  b_mod : ℚ
  c_mod : ℚ
deriving DecidableEq

structure City where
  id : String
  name : String
  region : String
  modifiers : List (String × CityModifier)
  stock : List (String × ℤ)
  demand_factors : List (String × ℚ)
deriving DecidableEq

structure Route where
  from_city : String
  to_city : String
  min_days : ℤ
  max_days : ℤ
  base_risk : ℚ
deriving DecidableEq

structure Ship where
  hull_level : ℤ
  rigging_level : ℤ
  cargo_capacity : ℤ
  crew_size : ℤ
  crew_morale : ℚ
  special_equipment : List String
deriving DecidableEq

structure Charter where
  cities : List String
  goods : List String
deriving DecidableEq

/-- `Charter.applies_to`: the charter covers the city and the good. -/
def Charter.applies_to (ch : Charter) (city good : String) : Bool :=
  ch.cities.contains city && ch.goods.contains good

structure Stats where
  total_trades : ℕ
  goods_bought : List (String × ℤ)
  goods_sold : List (String × ℤ)
  total_spent : SurrealNumber
  total_earned : SurrealNumber
  cities_visited : List String
  routes_traveled : ℕ
  events_encountered : ℕ
  supply_refreshes : ℕ
deriving DecidableEq

structure GameState where
  current_city : String
  day : ℤ
  money : SurrealNumber
  ship : Ship
  cargo : List (String × ℤ)
  charters : List Charter
  reputation : List (String × ℚ)
  game_completed : Bool
  owns_house : Bool
  start_money : SurrealNumber
  last_supply_refresh_day : ℤ
  stats : Stats
  goods : List (String × Good)
  cities : List (String × City)
  routes : List Route
  base_stock_levels : List (String × List (String × ℤ))
deriving DecidableEq

/-- The `is_specialty` test of the source: the city carries a modifier for
the good and its real delta is negative. -/
def isSpecialty (mods : List (String × CityModifier)) (gid : String) : Bool :=
  match findA mods gid with
  | some m => decide (m.a_mod < 0)
  | none => false

/-- `GameState.get_price`: the pricing engine. `none` models the `KeyError`
raised on an unknown good or city id. -/
def get_price (s : GameState) (good_id city_id : String) (is_buying : Bool) :
    Option SurrealNumber :=
  match findA s.goods good_id, findA s.cities city_id with
  | some good, some city =>
    let p0 : SurrealNumber :=
      ⟨good.base_a, good.base_b, if good.monopoly then 1 else 0⟩
    let p1 : SurrealNumber :=
      match findA city.modifiers good_id with
      | some m => ⟨p0.a + m.a_mod, p0.b + m.b_mod,
          if good.monopoly then m.c_mod else 0⟩
      | none => p0
    let p2 : SurrealNumber :=
      if s.charters.any (fun ch => ch.applies_to city_id good_id) then
        ⟨p1.a, p1.b, 0⟩
      else p1
    let stock : ℤ := findD city.stock good_id 0
    let player_cargo : ℤ := findD s.cargo good_id 0
    let base_spread : ℚ := 15/100
    let stock_factor : ℚ := max (1/2) (min 2 ((stock : ℚ) / 10))
    let inventory_pressure : ℚ := 1 + (player_cargo : ℚ) * (2/100)
    let is_spec : Bool := isSpecialty city.modifiers good_id
    let specialty_bonus : ℚ := if is_spec then 5/100 else 0
    let p3 : SurrealNumber :=
      if is_buying then
        let spread_multiplier := 1 + base_spread + (1 / stock_factor - 1) * (1/10)
        let pa := p2.a * spread_multiplier
        if is_spec then ⟨pa * (102/100), p2.b + 1/2, p2.c⟩
        else ⟨pa, p2.b, p2.c⟩
      else
        let sm0 := 1 - base_spread - specialty_bonus
        let sm1 := sm0 - (stock_factor - 1) * (5/100)
        let sm2 := sm1 / inventory_pressure
        let pa := p2.a * max (7/10) sm2
        if is_spec then ⟨pa, p2.b - 3/10, p2.c⟩
        else ⟨pa, p2.b, p2.c⟩
    let rep_bonus : ℚ := findD s.reputation "merchant_guild" 0 * (-15/100)
    some ⟨p3.a, p3.b + rep_bonus, p3.c⟩
  | _, _ => none

/-- `GameState.negotiate_price`: the outer `none` models the `KeyError`
crash of `get_price`; the inner `none` is the "requires permit" refusal. -/
def negotiate_price (s : GameState) (good_id city_id : String) (quantity : ℤ)
    (is_buying : Bool) : Option (Option SurrealNumber) :=
  (get_price s good_id city_id is_buying).map
    (fun base_price => resolveNegotiation base_price quantity is_buying)

/-- `GameState.can_afford`: the price is legal and the cash balance
compares `>=` it. -/
def can_afford (s : GameState) (price : SurrealNumber) : Bool :=
  price.is_legal && SurrealNumber.sge s.money price

/-- The transaction core of `GameEngine.buy_goods` for a chosen good and
quantity: the outer `none` models a `KeyError` crash; the Bool of the result
reports whether the purchase was executed (`false` = rejected, no change). -/
def buy_goods (s : GameState) (good_id : String) (quantity : ℤ) :
    Option (GameState × Bool) :=
  match findA s.cities s.current_city with
  | none => none
  | some city =>
    match findA city.stock good_id with
    | none => some (s, false)
    | some max_stock =>
      if (findA s.goods good_id).isSome ∧ 0 < max_stock then
        if 1 ≤ quantity ∧ quantity ≤ max_stock then
          match negotiate_price s good_id s.current_city quantity true with
          | none => none
          | some none => some (s, false)
          | some (some total_price) =>
            if can_afford s total_price then
              some ({ s with
                money := s.money.sub total_price,
                cargo := setA s.cargo good_id (findD s.cargo good_id 0 + quantity),
                cities := setA s.cities s.current_city
                  { city with stock := setA city.stock good_id (max_stock - quantity) },
                stats := { s.stats with
                  total_trades := s.stats.total_trades + 1,
                  goods_bought := setA s.stats.goods_bought good_id (findD s.stats.goods_bought good_id 0 + quantity),
                  total_spent := s.stats.total_spent.add total_price } }, true)
            else some (s, false)
        else some (s, false)
      else some (s, false)

/-- The transaction core of `GameEngine.sell_goods` for a chosen cargo good
and quantity; same conventions as `buy_goods`. -/
def sell_goods (s : GameState) (good_id : String) (quantity : ℤ) :
    Option (GameState × Bool) :=
  match findA s.cargo good_id with
  | none => some (s, false)
  | some max_quantity =>
    if 1 ≤ quantity ∧ quantity ≤ max_quantity then
      match negotiate_price s good_id s.current_city quantity false with
      | none => none
      | some none => some (s, false)
      | some (some total_price) =>
        match findA s.cities s.current_city with
        | none => none
        | some city =>
          let remaining := max_quantity - quantity
          some ({ s with
            money := s.money.add total_price,
            cargo := if remaining = 0 then removeA s.cargo good_id
                     else setA s.cargo good_id remaining,
            cities := setA s.cities s.current_city
              { city with stock := setA city.stock good_id (findD city.stock good_id 0 + quantity) },
            stats := { s.stats with
              total_trades := s.stats.total_trades + 1,
              goods_sold := setA s.stats.goods_sold good_id (findD s.stats.goods_sold good_id 0 + quantity),
              total_earned := s.stats.total_earned.add total_price } }, true)
    else some (s, false)

/-- `random.randint lo hi` modelled with an injected raw draw `v`: the result
`lo + v mod (hi - lo + 1)` always lies in `[lo, hi]` (for `lo ≤ hi`), and
every value of the range is realised by some `v`. -/
def randint (lo hi v : ℤ) : ℤ := lo + v % (hi - lo + 1)

/-- The inner loop of `GameState.refresh_city_supplies` over one city's
base-stock table; `g` supplies the successive raw random draws, `n` is the
index of the next draw. `none` models the `KeyError` on a good id missing
from the goods table at the points where the source reads it. -/
def refreshStockList (g : ℕ → ℤ) (glist : List (String × Good))
    (mods : List (String × CityModifier)) :
    List (String × ℤ) → List (String × ℤ) → ℕ → Option (List (String × ℤ) × ℕ)
  | [], stock, n => some (stock, n)
  | (gid, base_amount) :: rest, stock, n =>
    let current_stock := findD stock gid 0
    if isSpecialty mods gid then
      let new_stock := base_amount + randint 2 8 (g n)
      match findA glist gid with
      | none => none
      | some _ =>
        refreshStockList g glist mods rest
          (setA stock gid (max current_stock new_stock)) (n + 1)
    else
      let new_stock := max 1 (base_amount + randint (-2) 4 (g n))
      if current_stock < new_stock then
        match findA glist gid with
        | none => none
        | some _ =>
          refreshStockList g glist mods rest
            (setA stock gid (max current_stock new_stock)) (n + 1)
      else
        refreshStockList g glist mods rest
          (setA stock gid (max current_stock new_stock)) (n + 1)

/-- The outer loop of `refresh_city_supplies` over the cities; `none` models
the `KeyError` on a city missing from the base-stock table. -/
def refreshCities (g : ℕ → ℤ) (glist : List (String × Good))
    (bsl : List (String × List (String × ℤ))) :
    List (String × City) → ℕ → Option (List (String × City) × ℕ)
  | [], n => some ([], n)
  | (cid, city) :: rest, n =>
    match findA bsl cid with
    | none => none
    | some base_stocks =>
      match refreshStockList g glist city.modifiers base_stocks city.stock n with
      | none => none
      | some (stock', n') =>
        match refreshCities g glist bsl rest n' with
        | none => none
        | some (rest', n'') => some ((cid, { city with stock := stock' }) :: rest', n'')

/-- `GameState.refresh_city_supplies`, with the raw random draws injected
through `g`. -/
def refresh_city_supplies (g : ℕ → ℤ) (s : GameState) : Option GameState :=
  match refreshCities g s.goods s.base_stock_levels s.cities 0 with
  | none => none
  | some (cities', _) =>
      some { s with
        cities := cities',
        stats := { s.stats with supply_refreshes := s.stats.supply_refreshes + 1 } }

/-- Stock of a good in a city of a city table, 0 when absent. -/
def stockGetL (cl : List (String × City)) (cid gid : String) : ℤ :=
  match findA cl cid with
  | some city => findD city.stock gid 0
  | none => 0

/-- Stock of a good in a city of a game state, 0 when absent. -/
def stockGet (s : GameState) (cid gid : String) : ℤ :=
  stockGetL s.cities cid gid

/-- `GameState._create_goods`. -/
def create_goods : List (String × Good) :=
  [("purple_dye", ⟨"purple_dye", "Purple Dye", 220, -3, true, false, false⟩),
   ("glass", ⟨"glass", "Glass", 120, 0, false, false, false⟩),
   ("olive_oil", ⟨"olive_oil", "Olive Oil", 40, -1, false, false, true⟩),
   ("cedar", ⟨"cedar", "Cedar Timber", 90, -1, false, false, false⟩),
   ("wine", ⟨"wine", "Wine", 36, 0, false, true, true⟩),
   ("salt", ⟨"salt", "Salt", 18, 1, false, false, false⟩),
   ("tin", ⟨"tin", "Tin", 130, 1, false, false, false⟩),
   ("silver", ⟨"silver", "Silver", 240, 2, false, false, false⟩)]

def carthageCity : City :=
  ⟨"carthage", "Carthage", "N. Africa",
   [("glass", ⟨-8, -1, 0⟩), ("olive_oil", ⟨4, 0, 0⟩), ("wine", ⟨2, 0, 0⟩)],
   [("glass", 18), ("olive_oil", 25), ("wine", 12), ("salt", 30)], []⟩

def tyreCity : City :=
  ⟨"tyre", "Tyre", "Levant",
   [("purple_dye", ⟨-40, -2, 0⟩), ("glass", ⟨-20, -1, 0⟩), ("cedar", ⟨-30, -1, 0⟩)],
   [("purple_dye", 5), ("glass", 15), ("cedar", 8)], []⟩

def gadirCity : City :=
  ⟨"gadir", "Gadir", "Iberia",
   [("purple_dye", ⟨0, 0, 1⟩), ("silver", ⟨-30, 1, 0⟩), ("tin", ⟨-20, 0, 0⟩)],
   [("silver", 6), ("tin", 12), ("salt", 20)], []⟩

/-- `GameState._create_cities` (modifiers already attached). -/
def create_cities : List (String × City) :=
  [("carthage", carthageCity), ("tyre", tyreCity), ("gadir", gadirCity)]

/-- The base stock table stored next to the cities. -/
def base_stock_levels_init : List (String × List (String × ℤ)) :=
  [("carthage", [("glass", 18), ("olive_oil", 25), ("wine", 12), ("salt", 30)]),
   ("tyre", [("purple_dye", 5), ("glass", 15), ("cedar", 8)]),
   ("gadir", [("silver", 6), ("tin", 12), ("salt", 20)])]

/-- `GameState._create_routes`. -/
def create_routes : List Route :=
  [⟨"carthage", "gadir", 7, 10, 18/100⟩,
   ⟨"carthage", "tyre", 12, 16, 15/100⟩,
   ⟨"tyre", "gadir", 18, 28, 22/100⟩,
   ⟨"gadir", "carthage", 8, 11, 16/100⟩,
   ⟨"tyre", "carthage", 11, 15, 12/100⟩,
   ⟨"gadir", "tyre", 20, 30, 25/100⟩]

/-- The state built by `GameState.__init__`. -/
def initialState : GameState :=
  { current_city := "carthage",
    day := 1,
    money := ⟨1240, -1, 0⟩,
    ship := ⟨1, 1, 50, 8, 1, []⟩,
    cargo := [],
    charters := [],
    reputation := [("merchant_guild", 5)],
    game_completed := false,
    owns_house := false,
    start_money := ⟨1240, -1, 0⟩,
    last_supply_refresh_day := 1,
    stats := ⟨0, [], [], ⟨0, 0, 0⟩, ⟨0, 0, 0⟩, ["carthage"], 0, 0, 0⟩,
    goods := create_goods,
    cities := create_cities,
    routes := create_routes,
    base_stock_levels := base_stock_levels_init }

/-- The initial state extended with a charter covering (gadir, purple_dye). -/
def gadirCharterState : GameState :=
  { initialState with charters := [⟨["gadir"], ["purple_dye"]⟩] }

theorem findA_setA {α : Type} (l : List (String × α)) (k k' : String) (v : α) :
    findA (setA l k v) k' = if k = k' then some v else findA l k' := by
  induction l with
  | nil => simp [setA, findA]
  | cons p t ih =>
    obtain ⟨k0, v0⟩ := p
    by_cases h0 : k0 = k
    · subst h0
      by_cases h1 : k0 = k'
      · subst h1; simp [setA, findA]
      · simp [setA, findA, h1]
    · by_cases h1 : k0 = k'
      · subst h1
        have hk : ¬k = k0 := fun h => h0 h.symm
        simp [setA, findA, h0, hk, ih]
      · simp [setA, findA, h0, h1, ih]

theorem findD_setA {α : Type} (l : List (String × α)) (k k' : String) (v d : α) :
    findD (setA l k v) k' d = if k = k' then v else findD l k' d := by
  rw [findD, findA_setA]
  by_cases h : k = k' <;> simp [h, findD]

/-- C10: componentwise associativity of surreal addition holds exactly, hence
within the 1e-10 tolerance on each of the three axes independently, and the
two association orders are tolerance-equal. -/
theorem add_assoc_each_axis_within_tolerance (x y z : SurrealNumber) :
    |((x.add y).add z).a - (x.add (y.add z)).a| < eps ∧
    |((x.add y).add z).b - (x.add (y.add z)).b| < eps ∧
    |((x.add y).add z).c - (x.add (y.add z)).c| < eps ∧
    SurrealNumber.seq ((x.add y).add z) (x.add (y.add z)) = true := by
  have h : (x.add y).add z = x.add (y.add z) := by
    simp [SurrealNumber.add, add_assoc]
  rw [h]
  norm_num [SurrealNumber.seq, eps]

/-- C9 counterexample: the infinite components differ (1e-11 vs 0) and the
first value has the larger one, yet it does not compare strictly greater:
tolerance-based equality makes its gt comparison return false. -/
theorem larger_infinite_not_strictly_greater :
    (⟨0, 0, 0⟩ : SurrealNumber).c < (⟨0, 0, 1/100000000000⟩ : SurrealNumber).c ∧
    SurrealNumber.sgt ⟨0, 0, 1/100000000000⟩ ⟨0, 0, 0⟩ = false := by
  constructor
  · norm_num
  · norm_num [SurrealNumber.sgt, SurrealNumber.sle, SurrealNumber.slt,
      SurrealNumber.seq, eps, abs_lt]

/-- C9 amended: of two PriceValues with different infinite components, the one
with the larger infinite component compares greater-or-equal and the other
compares strictly less under the exact lexicographic lt, independent of the
real and infinitesimal components; it compares strictly greater whenever the
two values are not tolerance-equal. -/
theorem larger_infinite_compares_above (x y : SurrealNumber) (h : y.c < x.c) :
    SurrealNumber.slt y x = true ∧ SurrealNumber.sge x y = true ∧
    (SurrealNumber.seq x y = false → SurrealNumber.sgt x y = true) := by
  have hne : y.c ≠ x.c := ne_of_lt h
  have hne' : x.c ≠ y.c := ne_of_gt h
  refine ⟨?_, ?_, ?_⟩
  · simp [SurrealNumber.slt, hne, h]
  · simp [SurrealNumber.sge, SurrealNumber.slt, hne', not_lt.mpr h.le]
  · intro hseq
    simp [SurrealNumber.sgt, SurrealNumber.sle, hseq, SurrealNumber.slt, hne',
      not_lt.mpr h.le]

/-- Witness for C9's amended theorem at concrete inputs. -/
theorem larger_infinite_compares_above_witness :
    SurrealNumber.slt ⟨100, 0, 0⟩ ⟨5, 7, 1⟩ = true ∧
    SurrealNumber.sge ⟨5, 7, 1⟩ ⟨100, 0, 0⟩ = true ∧
    SurrealNumber.sgt ⟨5, 7, 1⟩ ⟨100, 0, 0⟩ = true := by
  have h := larger_infinite_compares_above ⟨5, 7, 1⟩ ⟨100, 0, 0⟩ (by norm_num)
  exact ⟨h.1, h.2.1, h.2.2 (by norm_num [SurrealNumber.seq, eps])⟩

theorem slt_mul_scale_false (x : SurrealNumber) (hc : x.c = 0) (ha : 0 < x.a)
    (k1 k2 : ℚ) (hk : k2 < k1) :
    SurrealNumber.slt (x.mul k1) (x.mul k2) = false := by
  have hlt : x.a * k2 < x.a * k1 := (mul_lt_mul_left ha).mpr hk
  simp [SurrealNumber.slt, SurrealNumber.mul, hc, hlt.ne', lt_asymm hlt]

/-- C1: for a call to negotiate_price whose base price has infinite component
0 and strictly positive real component, the two opening offers always satisfy
max L >= min R, so find_simplest_in_gap returns none and negotiate_price
returns exactly the base price scaled by the quantity; the midpoint branch
is unreachable. -/
theorem negotiate_price_no_gap (s : GameState) (gid cid : String) (q : ℤ)
    (ib : Bool) (base : SurrealNumber)
    (hbase : get_price s gid cid ib = some base)
    (hc : base.c = 0) (ha : 0 < base.a) :
    (∀ mL mR, maxList (negotiationCut base ib).1 = some mL →
      minList (negotiationCut base ib).2 = some mR →
      SurrealNumber.sge mL mR = true) ∧
    find_simplest_in_gap (negotiationCut base ib).1 (negotiationCut base ib).2 = none ∧
    negotiate_price s gid cid q ib = some (some (base.mul (q : ℚ))) := by
  have hslt : SurrealNumber.slt
      (base.mul (if ib then 105/100 else 115/100))
      (base.mul (if ib then 85/100 else 95/100)) = false := by
    cases ib
    · exact slt_mul_scale_false base hc ha (115/100) (95/100) (by norm_num)
    · exact slt_mul_scale_false base hc ha (105/100) (85/100) (by norm_num)
  have hcut : negotiationCut base ib =
      ([base.mul (if ib then 105/100 else 115/100)],
       [base.mul (if ib then 85/100 else 95/100)]) := by
    cases ib <;> simp [negotiationCut]
  have hge : ∀ mL mR, maxList (negotiationCut base ib).1 = some mL →
      minList (negotiationCut base ib).2 = some mR →
      SurrealNumber.sge mL mR = true := by
    intro mL mR hmL hmR
    rw [hcut] at hmL hmR
    simp [maxList] at hmL
    simp [minList] at hmR
    subst hmL; subst hmR
    simp [SurrealNumber.sge, hslt]
  have hgap : find_simplest_in_gap (negotiationCut base ib).1
      (negotiationCut base ib).2 = none := by
    rw [hcut]
    simp [find_simplest_in_gap, maxList, minList, SurrealNumber.sge, hslt]
  refine ⟨hge, hgap, ?_⟩
  have hleg : base.is_legal = true := by simp [SurrealNumber.is_legal, hc]
  simp [negotiate_price, hbase, resolveNegotiation, hleg, hgap]

/-- Witness for C1 at the initial state's glass quote in carthage. -/
theorem negotiate_price_no_gap_witness :
    find_simplest_in_gap (negotiationCut ⟨47362/375, -5/4, 0⟩ true).1
      (negotiationCut ⟨47362/375, -5/4, 0⟩ true).2 = none ∧
    negotiate_price initialState "glass" "carthage" 3 true =
      some (some (SurrealNumber.mul ⟨47362/375, -5/4, 0⟩ ((3 : ℤ) : ℚ))) := by
  have h := negotiate_price_no_gap initialState "glass" "carthage" 3 true
    ⟨47362/375, -5/4, 0⟩
    (by simp [get_price, initialState, create_goods, create_cities, carthageCity,
          findA, findD, isSpecialty]
        norm_num)
    (by norm_num) (by norm_num)
  exact ⟨h.2.1, h.2.2⟩

/-- C2: when the resolver sees a legal base price and the constructed offer
sets have max L >= min R, it does not fail: it returns the raw base price
scaled by the quantity rather than none, for every quantity and both trade
directions. -/
theorem resolver_no_gap_falls_back (base : SurrealNumber) (q : ℤ) (ib : Bool)
    (mL mR : SurrealNumber)
    (hleg : base.is_legal = true)
    (hmL : maxList (negotiationCut base ib).1 = some mL)
    (hmR : minList (negotiationCut base ib).2 = some mR)
    (hge : SurrealNumber.sge mL mR = true) :
    resolveNegotiation base q ib = some (base.mul (q : ℚ)) := by
  have hgap : find_simplest_in_gap (negotiationCut base ib).1
      (negotiationCut base ib).2 = none := by
    simp [find_simplest_in_gap, hmL, hmR, hge]
  simp [resolveNegotiation, hleg, hgap]

/-- Witness for C2 at a concrete legal base price. -/
theorem resolver_no_gap_falls_back_witness :
    resolveNegotiation ⟨100, 0, 0⟩ 2 true =
      some (SurrealNumber.mul ⟨100, 0, 0⟩ ((2 : ℤ) : ℚ)) :=
  resolver_no_gap_falls_back ⟨100, 0, 0⟩ 2 true
    (SurrealNumber.mul ⟨100, 0, 0⟩ (105/100))
    (SurrealNumber.mul ⟨100, 0, 0⟩ (85/100))
    (by norm_num [SurrealNumber.is_legal])
    (by simp [negotiationCut, maxList])
    (by simp [negotiationCut, minList])
    (by norm_num [SurrealNumber.sge, SurrealNumber.slt, SurrealNumber.mul])

/-- C3 counterexample: for glass in carthage (stock 18, no holdings,
reputation 5) the buying quote's real component is not
112·(1 + 0.15 + (1/1.8 − 1)·0.1): glass is a carthage specialty, so the
engine applies a further 1.02 factor. -/
theorem glass_buy_quote_counterexample :
    (get_price initialState "glass" "carthage" true).map (fun q => q.a) ≠
      some (112 * (1 + 15/100 + (1 / (18/10) - 1) * (1/10))) := by
  simp [get_price, initialState, create_goods, create_cities, carthageCity,
    findA, findD, isSpecialty]
  norm_num

/-- C3 amended: the buying quote's real component for glass in carthage equals
112·(1 + 0.15 + (1/1.8 − 1)·0.1)·1.02, the §4.2 buying formula including the
specialty surcharge that applies because carthage's glass modifier has a
negative real delta. -/
theorem glass_buy_quote_amended :
    (get_price initialState "glass" "carthage" true).map (fun q => q.a) =
      some (112 * (1 + 15/100 + (1 / (18/10) - 1) * (1/10)) * (102/100)) := by
  simp [get_price, initialState, create_goods, create_cities, carthageCity,
    findA, findD, isSpecialty]
  norm_num

/-- C4: whenever some active charter applies to (city, good), any quote the
pricing engine returns is legal, regardless of monopoly flag, city modifier
infinite override, trade direction, holdings and reputation. -/
theorem charter_quote_legal (s : GameState) (gid cid : String) (ib : Bool)
    (ch : Charter) (hmem : ch ∈ s.charters)
    (happ : ch.applies_to cid gid = true) :
    ∀ q, get_price s gid cid ib = some q → q.is_legal = true := by
  intro q hq
  have hany : s.charters.any (fun c => c.applies_to cid gid) = true :=
    List.any_eq_true.mpr ⟨ch, hmem, happ⟩
  unfold get_price at hq
  cases hg : findA s.goods gid with
  | none => rw [hg] at hq; simp at hq
  | some good =>
    cases hcy : findA s.cities cid with
    | none => rw [hg, hcy] at hq; simp at hq
    | some city =>
      rw [hg, hcy] at hq
      simp only [hany, if_true] at hq
      obtain rfl := (Option.some.injEq _ _).mp hq
      simp only [SurrealNumber.is_legal]
      split <;> split <;> norm_num

/-- Witness for C4: the (gadir, purple_dye) charter makes the embargoed
monopoly good's buying quote legal. -/
theorem charter_quote_legal_witness :
    SurrealNumber.is_legal ⟨275, -15/4, 0⟩ = true :=
  charter_quote_legal gadirCharterState "purple_dye" "gadir" true
    ⟨["gadir"], ["purple_dye"]⟩
    (by simp [gadirCharterState])
    (by simp [Charter.applies_to])
    ⟨275, -15/4, 0⟩
    (by simp [get_price, gadirCharterState, initialState, create_goods,
          create_cities, gadirCity, findA, findD, isSpecialty, Charter.applies_to]
        norm_num)

/-- C5: a monopoly good with no applicable charter whose city modifier is
absent or has infinite override at least 1 quotes illegal; concretely,
purple_dye in gadir (modifier infinite = 1, no charter) quotes illegal for
both buying and selling, and adding a charter covering (gadir, purple_dye)
makes both quotes legal. -/
theorem monopoly_no_charter_illegal :
    (∀ (s : GameState) (gid cid : String) (ib : Bool) (good : Good) (city : City),
      findA s.goods gid = some good → good.monopoly = true →
      findA s.cities cid = some city →
      (∀ ch ∈ s.charters, ch.applies_to cid gid = false) →
      (findA city.modifiers gid = none ∨
        ∃ m, findA city.modifiers gid = some m ∧ 1 ≤ m.c_mod) →
      ∀ q, get_price s gid cid ib = some q → q.is_legal = false) ∧
    (get_price initialState "purple_dye" "gadir" true).map SurrealNumber.is_legal
      = some false ∧
    (get_price initialState "purple_dye" "gadir" false).map SurrealNumber.is_legal
      = some false ∧
    (get_price gadirCharterState "purple_dye" "gadir" true).map SurrealNumber.is_legal
      = some true ∧
    (get_price gadirCharterState "purple_dye" "gadir" false).map SurrealNumber.is_legal
      = some true := by
  refine ⟨?_, ?_, ?_, ?_, ?_⟩
  · intro s gid cid ib good city hg hmono hcy hnoch hmod q hq
    have hany : s.charters.any (fun c => c.applies_to cid gid) = false := by
      rw [List.any_eq_false]
      intro ch hch
      simp [hnoch ch hch]
    unfold get_price at hq
    rw [hg, hcy] at hq
    simp only [hany, Bool.false_eq_true, if_false] at hq
    rcases hmod with hnone | ⟨m, hm, hm1⟩
    · rw [hnone] at hq
      simp only [hmono, if_true] at hq
      obtain rfl := (Option.some.injEq _ _).mp hq
      simp only [SurrealNumber.is_legal]
      split <;> split <;> norm_num
    · rw [hm] at hq
      simp only [hmono, if_true] at hq
      obtain rfl := (Option.some.injEq _ _).mp hq
      have hnle : ¬(m.c_mod ≤ 0) := by linarith
      simp only [SurrealNumber.is_legal]
      split <;> split <;> simp [hnle]
  · simp [get_price, initialState, create_goods, create_cities, gadirCity,
      findA, findD, isSpecialty, SurrealNumber.is_legal]
  · simp [get_price, initialState, create_goods, create_cities, gadirCity,
      findA, findD, isSpecialty, SurrealNumber.is_legal]
  · simp [get_price, gadirCharterState, initialState, create_goods,
      create_cities, gadirCity, findA, findD, isSpecialty, Charter.applies_to,
      SurrealNumber.is_legal]
  · simp [get_price, gadirCharterState, initialState, create_goods,
      create_cities, gadirCity, findA, findD, isSpecialty, Charter.applies_to,
      SurrealNumber.is_legal]

/-- Witness for C5's general part at purple_dye in gadir (buying). -/
theorem monopoly_no_charter_illegal_witness :
    SurrealNumber.is_legal ⟨275, -15/4, 1⟩ = false :=
  monopoly_no_charter_illegal.1 initialState "purple_dye" "gadir" true
    ⟨"purple_dye", "Purple Dye", 220, -3, true, false, false⟩ gadirCity
    (by simp [initialState, create_goods, findA])
    rfl
    (by simp [initialState, create_cities, findA])
    (by simp [initialState])
    (Or.inr ⟨⟨0, 0, 1⟩, by simp [gadirCity, findA], by norm_num⟩)
    ⟨275, -15/4, 1⟩
    (by simp [get_price, initialState, create_goods, create_cities, gadirCity,
          findA, findD, isSpecialty]
        norm_num)

/-- C6: a rejected buy or sell attempt (illegal price, unaffordable settled
price, or invalid quantity) leaves the whole game state — cash, cargo, city
stock and statistics — exactly unchanged. -/
theorem rejected_transaction_atomic (s : GameState) (gid : String) (q : ℤ)
    (r : GameState) :
    (buy_goods s gid q = some (r, false) → r = s) ∧
    (sell_goods s gid q = some (r, false) → r = s) := by
  constructor
  · intro h
    unfold buy_goods at h
    repeat' split at h
    all_goals simp_all
  · intro h
    unfold sell_goods at h
    repeat' split at h
    all_goals simp_all

/-- Witness for C6: a zero-quantity buy and an empty-cargo sell are rejected
at the initial state and leave it unchanged. -/
theorem rejected_transaction_atomic_witness :
    buy_goods initialState "glass" 0 = some (initialState, false) ∧
    sell_goods initialState "glass" 1 = some (initialState, false) ∧
    initialState = initialState ∧ initialState = initialState := by
  have hb : buy_goods initialState "glass" 0 = some (initialState, false) := by
    simp [buy_goods, initialState, create_cities, carthageCity, findA]
  have hs : sell_goods initialState "glass" 1 = some (initialState, false) := by
    simp [sell_goods, initialState, findA]
  exact ⟨hb, hs,
    (rejected_transaction_atomic initialState "glass" 0 initialState).1 hb,
    (rejected_transaction_atomic initialState "glass" 1 initialState).2 hs⟩

theorem randint_bounds (lo hi v : ℤ) (h : lo ≤ hi) :
    lo ≤ randint lo hi v ∧ randint lo hi v ≤ hi := by
  unfold randint
  have h1 : 0 ≤ v % (hi - lo + 1) := Int.emod_nonneg v (by omega)
  have h2 : v % (hi - lo + 1) < hi - lo + 1 := Int.emod_lt_of_pos v (by omega)
  omega

theorem option_eq_some_getD {α : Type} (o : Option α) (d : α)
    (h : o.isSome = true) : o = some (o.getD d) := by
  cases o <;> simp_all

theorem refreshStockList_cons_some (g : ℕ → ℤ) (glist : List (String × Good))
    (mods : List (String × CityModifier)) (gid0 : String) (b0 : ℤ)
    (rest stock : List (String × ℤ)) (n : ℕ) (out : List (String × ℤ) × ℕ)
    (h : refreshStockList g glist mods ((gid0, b0) :: rest) stock n = some out) :
    ∃ ns : ℤ,
      refreshStockList g glist mods rest
        (setA stock gid0 (max (findD stock gid0 0) ns)) (n + 1) = some out ∧
      ((isSpecialty mods gid0 = true ∧ ns = b0 + randint 2 8 (g n)) ∨
       (isSpecialty mods gid0 = false ∧ ns = max 1 (b0 + randint (-2) 4 (g n)))) := by
  simp only [refreshStockList] at h
  split at h
  next hspec =>
    split at h
    next => simp at h
    next => exact ⟨b0 + randint 2 8 (g n), h, Or.inl ⟨hspec, rfl⟩⟩
  next hspec =>
    have hspec' : isSpecialty mods gid0 = false := by
      simpa using hspec
    split at h
    next =>
      split at h
      next => simp at h
      next => exact ⟨max 1 (b0 + randint (-2) 4 (g n)), h, Or.inr ⟨hspec', rfl⟩⟩
    next => exact ⟨max 1 (b0 + randint (-2) 4 (g n)), h, Or.inr ⟨hspec', rfl⟩⟩

theorem refreshStockList_mono (g : ℕ → ℤ) (glist : List (String × Good))
    (mods : List (String × CityModifier)) :
    ∀ (bl stock : List (String × ℤ)) (n : ℕ) (out : List (String × ℤ) × ℕ),
      refreshStockList g glist mods bl stock n = some out →
      ∀ gid, findD stock gid 0 ≤ findD out.1 gid 0 := by
  intro bl
  induction bl with
  | nil =>
    intro stock n out h gid
    simp only [refreshStockList, Option.some.injEq] at h
    subst h
    exact le_refl _
  | cons p rest ih =>
    obtain ⟨gid0, b0⟩ := p
    intro stock n out h gid
    obtain ⟨ns, hrec, _⟩ :=
      refreshStockList_cons_some g glist mods gid0 b0 rest stock n out h
    refine le_trans ?_ (ih _ _ _ hrec gid)
    rw [findD_setA]
    by_cases hgg : gid0 = gid
    · subst hgg; simp [le_max_left]
    · simp [hgg]

theorem refreshStockList_unchanged (g : ℕ → ℤ) (glist : List (String × Good))
    (mods : List (String × CityModifier)) :
    ∀ (bl stock : List (String × ℤ)) (n : ℕ) (out : List (String × ℤ) × ℕ),
      refreshStockList g glist mods bl stock n = some out →
      ∀ gid, (∀ p ∈ bl, p.1 ≠ gid) → findD out.1 gid 0 = findD stock gid 0 := by
  intro bl
  induction bl with
  | nil =>
    intro stock n out h gid hm
    simp only [refreshStockList, Option.some.injEq] at h
    subst h
    rfl
  | cons p rest ih =>
    obtain ⟨gid0, b0⟩ := p
    intro stock n out h gid hm
    obtain ⟨ns, hrec, _⟩ :=
      refreshStockList_cons_some g glist mods gid0 b0 rest stock n out h
    rw [ih _ _ _ hrec gid (fun p hp => hm p (List.mem_cons_of_mem _ hp))]
    rw [findD_setA, if_neg (hm (gid0, b0) (List.mem_cons_self _ _))]

theorem refreshStockList_spec (g : ℕ → ℤ) (glist : List (String × Good))
    (mods : List (String × CityModifier)) :
    ∀ (bl stock : List (String × ℤ)) (n : ℕ) (out : List (String × ℤ) × ℕ),
      refreshStockList g glist mods bl stock n = some out →
      (bl.map Prod.fst).Nodup →
      ∀ gid b0, findA bl gid = some b0 →
      ∃ d : ℤ,
        (isSpecialty mods gid = true → (2 ≤ d ∧ d ≤ 8) ∧
          findD out.1 gid 0 = max (findD stock gid 0) (b0 + d)) ∧
        (isSpecialty mods gid = false → ((-2) ≤ d ∧ d ≤ 4) ∧
          findD out.1 gid 0 = max (findD stock gid 0) (max 1 (b0 + d))) := by
  intro bl
  induction bl with
  | nil =>
    intro stock n out h hnd gid b0 hb
    simp [findA] at hb
  | cons p rest ih =>
    obtain ⟨gid0, v0⟩ := p
    intro stock n out h hnd gid b0 hb
    simp only [List.map_cons, List.nodup_cons] at hnd
    obtain ⟨hnotin, hndrest⟩ := hnd
    obtain ⟨ns, hrec, hcase⟩ :=
      refreshStockList_cons_some g glist mods gid0 v0 rest stock n out h
    simp only [findA] at hb
    by_cases hg : gid0 = gid
    · subst hg
      rw [if_pos rfl] at hb
      obtain rfl := (Option.some.injEq _ _).mp hb
      have hnm : ∀ p ∈ rest, p.1 ≠ gid0 := by
        intro p hp hpe
        exact hnotin (hpe ▸ List.mem_map_of_mem Prod.fst hp)
      have hout : findD out.1 gid0 0 = max (findD stock gid0 0) ns := by
        rw [refreshStockList_unchanged g glist mods rest _ _ _ hrec gid0 hnm,
          findD_setA, if_pos rfl]
      rcases hcase with ⟨hspec, rfl⟩ | ⟨hspec, rfl⟩
      · refine ⟨randint 2 8 (g n), fun _ => ⟨?_, hout⟩, fun hf => ?_⟩
        · exact randint_bounds 2 8 (g n) (by norm_num)
        · rw [hspec] at hf; simp at hf
      · refine ⟨randint (-2) 4 (g n), fun ht => ?_, fun _ => ⟨?_, hout⟩⟩
        · rw [hspec] at ht; simp at ht
        · exact randint_bounds (-2) 4 (g n) (by norm_num)
    · rw [if_neg hg] at hb
      have hih := ih _ _ _ hrec hndrest gid b0 hb
      simp only [findD_setA, if_neg hg] at hih
      exact hih

theorem refreshCities_mono (g : ℕ → ℤ) (glist : List (String × Good))
    (bsl : List (String × List (String × ℤ))) :
    ∀ (cl : List (String × City)) (n : ℕ) (out : List (String × City) × ℕ),
      refreshCities g glist bsl cl n = some out →
      ∀ cid gid, stockGetL cl cid gid ≤ stockGetL out.1 cid gid := by
  intro cl
  induction cl with
  | nil =>
    intro n out h cid gid
    simp only [refreshCities, Option.some.injEq] at h
    subst h
    exact le_refl _
  | cons p rest ih =>
    obtain ⟨cid0, city0⟩ := p
    intro n out h cid gid
    simp only [refreshCities] at h
    cases hb : findA bsl cid0 with
    | none => simp only [hb] at h; exact Option.noConfusion h
    | some bs0 =>
      simp only [hb] at h
      cases hr : refreshStockList g glist city0.modifiers bs0 city0.stock n with
      | none => simp only [hr] at h; exact Option.noConfusion h
      | some pr =>
        obtain ⟨stock1, n1⟩ := pr
        simp only [hr] at h
        cases hrest : refreshCities g glist bsl rest n1 with
        | none => simp only [hrest] at h; exact Option.noConfusion h
        | some pr2 =>
          obtain ⟨rest', n2⟩ := pr2
          simp only [hrest, Option.some.injEq] at h
          subst h
          by_cases hc : cid0 = cid
          · subst hc
            simp only [stockGetL, findA, if_pos rfl]
            exact refreshStockList_mono g glist city0.modifiers bs0 city0.stock n
              (stock1, n1) hr gid
          · have := ih n1 (rest', n2) hrest cid gid
            simpa [stockGetL, findA, hc] using this

theorem refreshCities_spec (g : ℕ → ℤ) (glist : List (String × Good))
    (bsl : List (String × List (String × ℤ))) :
    ∀ (cl : List (String × City)) (n : ℕ) (out : List (String × City) × ℕ),
      refreshCities g glist bsl cl n = some out →
      ∀ cid city, findA cl cid = some city →
      ∀ bs, findA bsl cid = some bs →
      ∃ stock1 m m',
        refreshStockList g glist city.modifiers bs city.stock m = some (stock1, m') ∧
        findA out.1 cid = some { city with stock := stock1 } := by
  intro cl
  induction cl with
  | nil =>
    intro n out h cid city hfc bs hbs
    simp [findA] at hfc
  | cons p rest ih =>
    obtain ⟨cid0, city0⟩ := p
    intro n out h cid city hfc bs hbs
    simp only [refreshCities] at h
    cases hb : findA bsl cid0 with
    | none => simp only [hb] at h; exact Option.noConfusion h
    | some bs0 =>
      simp only [hb] at h
      cases hr : refreshStockList g glist city0.modifiers bs0 city0.stock n with
      | none => simp only [hr] at h; exact Option.noConfusion h
      | some pr =>
        obtain ⟨stock1, n1⟩ := pr
        simp only [hr] at h
        cases hrest : refreshCities g glist bsl rest n1 with
        | none => simp only [hrest] at h; exact Option.noConfusion h
        | some pr2 =>
          obtain ⟨rest', n2⟩ := pr2
          simp only [hrest, Option.some.injEq] at h
          subst h
          simp only [findA] at hfc
          by_cases hc : cid0 = cid
          · subst hc
            rw [if_pos rfl] at hfc
            obtain rfl := (Option.some.injEq _ _).mp hfc
            rw [hb] at hbs
            obtain rfl := (Option.some.injEq _ _).mp hbs
            exact ⟨stock1, n, n1, hr, by simp [findA]⟩
          · rw [if_neg hc] at hfc
            obtain ⟨stock2, m, m', hrs, hfa⟩ := ih n1 (rest', n2) hrest cid city hfc bs hbs
            exact ⟨stock2, m, m', hrs, by simpa [findA, hc] using hfa⟩

/-- C7: a supply refresh never decreases any stock: for every city and good
and every outcome of the random draws, the stock after refresh_city_supplies
is at least the stock before. -/
theorem refresh_supplies_monotone (g : ℕ → ℤ) (s s' : GameState)
    (h : refresh_city_supplies g s = some s') :
    ∀ cid gid, stockGet s cid gid ≤ stockGet s' cid gid := by
  intro cid gid
  unfold refresh_city_supplies at h
  cases hr : refreshCities g s.goods s.base_stock_levels s.cities 0 with
  | none => rw [hr] at h; simp at h
  | some pr =>
    obtain ⟨cities', n'⟩ := pr
    rw [hr] at h
    have hcities : s'.cities = cities' := by
      rw [← (Option.some.injEq _ _).mp h]
    have := refreshCities_mono g s.goods s.base_stock_levels s.cities 0
      (cities', n') hr cid gid
    simpa [stockGet, hcities] using this

/-- Witness for C7 at the initial state with all raw draws equal to 6. -/
theorem refresh_supplies_monotone_witness :
    stockGet initialState "carthage" "glass" ≤
    stockGet ((refresh_city_supplies (fun _ => 6) initialState).getD initialState)
      "carthage" "glass" :=
  refresh_supplies_monotone (fun _ => 6) initialState _
    (option_eq_some_getD _ _ (by
      simp [refresh_city_supplies, refreshCities, refreshStockList, initialState,
        create_goods, create_cities, base_stock_levels_init, carthageCity,
        tyreCity, gadirCity, randint, setA, findA, findD, isSpecialty]
      decide))
    "carthage" "glass"

/-- C8: a refresh sets, for each (city, good) pair of the city's base-stock
table, the stock to max(current, base + d) with d ∈ [2, 8] when the good is
a specialty of the city, and to max(current, max(1, base + d)) with
d ∈ [-2, 4] otherwise; concretely, tyre's purple_dye with current stock 5 and
a seeded draw of 8 (raw draw 6, randint 2 8 6 = 8) refreshes to
max(5, 5 + 8) = 13. -/
theorem refresh_sets_stock_per_pair :
    (∀ (g : ℕ → ℤ) (s s' : GameState), refresh_city_supplies g s = some s' →
      ∀ cid city bl gid b0,
        findA s.cities cid = some city →
        findA s.base_stock_levels cid = some bl →
        (bl.map Prod.fst).Nodup →
        findA bl gid = some b0 →
        ∃ d : ℤ,
          (isSpecialty city.modifiers gid = true → (2 ≤ d ∧ d ≤ 8) ∧
            stockGet s' cid gid = max (stockGet s cid gid) (b0 + d)) ∧
          (isSpecialty city.modifiers gid = false → ((-2) ≤ d ∧ d ≤ 4) ∧
            stockGet s' cid gid = max (stockGet s cid gid) (max 1 (b0 + d)))) ∧
    (refresh_city_supplies (fun _ => 6) initialState).map
      (fun s7 => stockGet s7 "tyre" "purple_dye") = some 13 ∧
    stockGet initialState "tyre" "purple_dye" = 5 ∧
    randint 2 8 6 = 8 := by
  refine ⟨?_, ?_, ?_, ?_⟩
  · intro g s s' h cid city bl gid b0 hfc hbs hnd hba
    unfold refresh_city_supplies at h
    cases hr : refreshCities g s.goods s.base_stock_levels s.cities 0 with
    | none => rw [hr] at h; simp at h
    | some pr =>
      obtain ⟨cities', n'⟩ := pr
      rw [hr] at h
      have hcities : s'.cities = cities' := by
        rw [← (Option.some.injEq _ _).mp h]
      obtain ⟨stock1, m, m', hrs, hfa⟩ :=
        refreshCities_spec g s.goods s.base_stock_levels s.cities 0 (cities', n')
          hr cid city hfc bl hbs
      obtain ⟨d, h1, h2⟩ :=
        refreshStockList_spec g s.goods city.modifiers bl city.stock m
          (stock1, m') hrs hnd gid b0 hba
      have hs' : stockGet s' cid gid = findD stock1 gid 0 := by
        simp [stockGet, stockGetL, hcities, hfa]
      have hs0 : stockGet s cid gid = findD city.stock gid 0 := by
        simp [stockGet, stockGetL, hfc]
      refine ⟨d, fun ht => ?_, fun hf => ?_⟩
      · obtain ⟨hbd, he⟩ := h1 ht
        exact ⟨hbd, by rw [hs', hs0]; exact he⟩
      · obtain ⟨hbd, he⟩ := h2 hf
        exact ⟨hbd, by rw [hs', hs0]; exact he⟩
  · simp [refresh_city_supplies, refreshCities, refreshStockList, initialState,
      create_goods, create_cities, base_stock_levels_init, carthageCity,
      tyreCity, gadirCity, randint, stockGet, stockGetL, setA, findA, findD,
      isSpecialty]
    decide
  · simp [stockGet, stockGetL, initialState, create_cities, tyreCity, findA, findD]
  · decide

/-- Witness for C8's general part at tyre's purple_dye with all raw draws 6. -/
theorem refresh_sets_stock_per_pair_witness :
    ∃ d : ℤ,
      (isSpecialty tyreCity.modifiers "purple_dye" = true → (2 ≤ d ∧ d ≤ 8) ∧
        stockGet ((refresh_city_supplies (fun _ => 6) initialState).getD initialState)
          "tyre" "purple_dye" =
          max (stockGet initialState "tyre" "purple_dye") (5 + d)) ∧
      (isSpecialty tyreCity.modifiers "purple_dye" = false → ((-2) ≤ d ∧ d ≤ 4) ∧
        stockGet ((refresh_city_supplies (fun _ => 6) initialState).getD initialState)
          "tyre" "purple_dye" =
          max (stockGet initialState "tyre" "purple_dye") (max 1 (5 + d))) :=
  refresh_sets_stock_per_pair.1 (fun _ => 6) initialState _
    (option_eq_some_getD _ _ (by
      simp [refresh_city_supplies, refreshCities, refreshStockList, initialState,
        create_goods, create_cities, base_stock_levels_init, carthageCity,
        tyreCity, gadirCity, randint, setA, findA, findD, isSpecialty]
      decide))
    "tyre" tyreCity [("purple_dye", 5), ("glass", 15), ("cedar", 8)] "purple_dye" 5
    (by simp [initialState, create_cities, findA])
    (by simp [initialState, base_stock_levels_init, findA])
    (by simp)
    (by simp [findA])
